import Mathlib

/-!
Verification of the EventFlux on-chain ticketing program.

The repository ships the TypeScript client (address derivation in
`frontend/lib`, instruction submission hooks) and the Anchor test suite;
the on-chain handler bodies themselves are not part of the shipped
sources, so the six instruction handlers below are modelled from the
specification (each such definition is marked `Modelled from the spec:`).
The address-derivation seed layout is embedded from the TypeScript
source (`getEventPassPda` and the test helper `findEventPassPda`).

Public keys are modelled as natural numbers; lamport amounts are
naturals with explicit `< 2^64` checks where the spec requires checked
(overflow-detecting) arithmetic.
-/

deriving instance DecidableEq for Except

namespace EventFlux

/-- A Solana public key, modelled abstractly as a natural number. -/
abbrev Pubkey := Nat

/-- Upper bound of u64 arithmetic: checked additions fail at `2^64`. -/
def U64_BOUND : Nat := 2 ^ 64

/-- Error taxonomy of the program (spec §7) together with the
framework/system level failures the spec says are propagated
unmodified: Anchor account-constraint failures, `init` on an address
already in use, insufficient funds on a system transfer, and a failure
returned by the external yield adapter. -/
inductive ProgramError where
  | InvalidSchedule
  | InvalidMetadata
  | TierNotFound
  | TierSoldOut
  | MathOverflow
  | UnauthorizedVerifier
  | AlreadyCheckedIn
  | EventNotEnded
  | AlreadySettled
  | NoYieldStrategy
  | InvalidHarvestAmount
  | PassNotCheckedIn
  | LoyaltyAlreadyIssued
  | ConstraintViolation
  | AccountAlreadyInUse
  | InsufficientFunds
  | AdapterFailure
  deriving DecidableEq, Repr

/-- Yield-strategy routing tag (spec §3: `None | Kamino | Sanctum`). -/
inductive YieldStrategy where
  | none
  | kamino
  | sanctum
  deriving DecidableEq, Repr

/-- One tier of an event: id, label, price, supply cap and sold counter
(spec §3, `TierConfig \x7b tier_id, label, price, max_supply, sold \x7d`). -/
structure TierConfig where
  tier_id : Nat
  label : String
  price_lamports : Nat
  max_supply : Nat
  sold : Nat
  deriving DecidableEq, Repr

/-- The per-instruction tier argument of `create_event` (no `sold`
field: the counter starts at zero). -/
structure TierArgs where
  tier_id : Nat
  label : String
  price_lamports : Nat
  max_supply : Nat
  deriving DecidableEq, Repr

/-- The Event account (spec §3). -/
structure EventAccount where
  organizer : Pubkey
  event_id : Nat
  name : String
  venue : String
  start_ts : Int
  end_ts : Int
  settlement_treasury : Pubkey
  yield_strategy : YieldStrategy
  authorized_verifiers : List Pubkey
  tiers : List TierConfig
  total_passes : Nat
  settled : Bool
  deriving DecidableEq, Repr

/-- The VaultState account (spec §3): monotonic lamport counters plus
the mirrored strategy tag and last harvest timestamp. -/
structure VaultState where
  strategy : YieldStrategy
  total_deposited : Nat
  total_withdrawn : Nat
  total_yield_harvested : Nat
  last_harvest_ts : Int
  deriving DecidableEq, Repr

/-- The EventPass account (spec §3): one per (event, attendee, tier). -/
structure EventPass where
  owner : Pubkey
  tier_id : Nat
  price_paid : Nat
  minted_at : Int
  checked_in : Bool
  checked_in_at : Option Int
  loyalty_mint : Option Pubkey
  deriving DecidableEq, Repr

/-- The key under which an EventPass lives: the attendee key together
with the single tier byte used in the pass PDA seeds (the TypeScript
derivation encodes `tierId` as `Buffer.from([tierId])`, i.e. one byte,
so the key carries `tier_id % 256`). -/
abbrev PassKey := Pubkey × Nat

/-- Pass key for an attendee and tier id: the tier id enters as the
single byte `tierId % 256`, mirroring `Buffer.from([tierId])` in the
TypeScript derivation. -/
def passKey (attendee : Pubkey) (tierId : Nat) : PassKey :=
  (attendee, tierId % 256)

/-- Whole-program state for one event: the Event and VaultState
accounts, the lamport balance of the program-owned VaultTreasury, the
lamport balance accumulated at the event's settlement treasury, the
external adapter reserve's balance, the map of EventPass accounts, and
the loyalty-token holding balances keyed by pass. -/
structure ProgState where
  event : EventAccount
  vault : VaultState
  vault_treasury : Nat
  settlement_balance : Nat
  adapter_reserve : Nat
  passes : List (PassKey × EventPass)
  loyalty_balances : List (PassKey × Nat)
  deriving DecidableEq, Repr

/-- Look up an EventPass at a key. -/
def findPass (s : ProgState) (k : PassKey) : Option EventPass :=
  (s.passes.find? (fun q => decide (q.1 = k))).map Prod.snd

/-- Replace the pass stored at key `k` (keys are untouched). -/
def setPass (ps : List (PassKey × EventPass)) (k : PassKey) (p : EventPass) :
    List (PassKey × EventPass) :=
  ps.map (fun q => if q.1 = k then (q.1, p) else q)

/-- Loyalty-token units held at the holding account of pass `k`. -/
def lookupBal (l : List (PassKey × Nat)) (k : PassKey) : Nat :=
  ((l.find? (fun q => decide (q.1 = k))).map Prod.snd).getD 0

/-- Credit one loyalty-token unit to the holding account of pass `k`. -/
def creditLoyalty (l : List (PassKey × Nat)) (k : PassKey) : List (PassKey × Nat) :=
  (k, lookupBal l k + 1) :: l

/-- Set the `sold` counter of every tier whose id is `tid` (tier ids
are unique within an event, enforced at creation). -/
def updateTierSold (ts : List TierConfig) (tid : Nat) (sold' : Nat) : List TierConfig :=
  ts.map (fun t => if t.tier_id = tid then { t with sold := sold' } else t)

/-- Arguments of `create_event` (spec §4.2). -/
structure CreateEventArgs where
  event_id : Nat
  name : String
  venue : String
  start_ts : Int
  end_ts : Int
  settlement_treasury : Pubkey
  yield_strategy : YieldStrategy
  authorized_verifiers : List Pubkey
  tiers : List TierArgs
  deriving DecidableEq, Repr

/-- Modelled from the spec: `create_event` (spec §4.2; the Rust handler
body is not among the shipped sources). Validates `end_ts > start_ts`
(else `InvalidSchedule`) and non-empty name/venue with unique tier ids
(else `InvalidMetadata`); allocates Event, VaultState and VaultTreasury
with `total_passes = 0`, `settled = false`, vault counters zeroed, and
no funds moving. -/
def create_event (organizer : Pubkey) (a : CreateEventArgs) :
    Except ProgramError ProgState :=
  if a.end_ts ≤ a.start_ts then
    Except.error ProgramError.InvalidSchedule
  else if a.name = "" ∨ a.venue = "" ∨ ¬ (a.tiers.map (·.tier_id)).Nodup then
    Except.error ProgramError.InvalidMetadata
  else
    Except.ok
      { event :=
          { organizer := organizer
            event_id := a.event_id
            name := a.name
            venue := a.venue
            start_ts := a.start_ts
            end_ts := a.end_ts
            settlement_treasury := a.settlement_treasury
            yield_strategy := a.yield_strategy
            authorized_verifiers := a.authorized_verifiers
            tiers := a.tiers.map (fun t =>
              { tier_id := t.tier_id, label := t.label
                price_lamports := t.price_lamports
                max_supply := t.max_supply, sold := 0 })
            total_passes := 0
            settled := false }
        vault :=
          { strategy := a.yield_strategy
            total_deposited := 0
            total_withdrawn := 0
            total_yield_harvested := 0
            last_harvest_ts := 0 }
        vault_treasury := 0
        settlement_balance := 0
        adapter_reserve := 0
        passes := []
        loyalty_balances := [] }

/-- A freshly minted pass record. -/
def mkPass (owner : Pubkey) (tid price : Nat) (now : Int) : EventPass :=
  { owner := owner
    tier_id := tid
    price_paid := price
    minted_at := now
    checked_in := false
    checked_in_at := Option.none
    loyalty_mint := Option.none }

/-- Modelled from the spec: `mint_pass` (spec §4.3; the Rust handler
body is not among the shipped sources). Looks the tier up by id
(`TierNotFound`), requires `sold < max_supply` (`TierSoldOut`),
creates the EventPass at its derived address (failing if that address
is already in use), transfers `price_lamports` from the attendee
(propagating insufficient funds), and performs the checked u64
increments of `sold`, `total_deposited` and `total_passes`
(`MathOverflow` on overflow). No check against the event's time window
is performed (spec §4.3 / §9: minting outside `[start_ts, end_ts]` is
allowed). -/
def mint_pass (s : ProgState) (attendee : Pubkey) (tid : Nat)
    (attendee_balance : Nat) (now : Int) : Except ProgramError ProgState :=
  match s.event.tiers.find? (fun t => decide (t.tier_id = tid)) with
  | Option.none => Except.error ProgramError.TierNotFound
  | Option.some tier =>
    if tier.max_supply ≤ tier.sold then
      Except.error ProgramError.TierSoldOut
    else if (s.passes.find? (fun q => decide (q.1 = passKey attendee tid))).isSome then
      Except.error ProgramError.AccountAlreadyInUse
    else if attendee_balance < tier.price_lamports then
      Except.error ProgramError.InsufficientFunds
    else if U64_BOUND ≤ tier.sold + 1 then
      Except.error ProgramError.MathOverflow
    else if U64_BOUND ≤ s.vault.total_deposited + tier.price_lamports then
      Except.error ProgramError.MathOverflow
    else if U64_BOUND ≤ s.event.total_passes + 1 then
      Except.error ProgramError.MathOverflow
    else
      Except.ok
        { s with
          event :=
            { s.event with
              tiers := updateTierSold s.event.tiers tid (tier.sold + 1)
              total_passes := s.event.total_passes + 1 }
          vault := { s.vault with
            total_deposited := s.vault.total_deposited + tier.price_lamports }
          vault_treasury := s.vault_treasury + tier.price_lamports
          passes := (passKey attendee tid, mkPass attendee tid tier.price_lamports now)
            :: s.passes }

/-- Authorization predicate of `check_in` (spec §4.4): the signer is the
Event's organizer, a listed verifier, or the pass's own owner. -/
def authorizedSigner (s : ProgState) (p : EventPass) (v : Pubkey) : Prop :=
  v = s.event.organizer ∨ v ∈ s.event.authorized_verifiers ∨ v = p.owner

instance (s : ProgState) (p : EventPass) (v : Pubkey) :
    Decidable (authorizedSigner s p v) := by
  unfold authorizedSigner; infer_instance

/-- Modelled from the spec: `check_in` (spec §4.4; the Rust handler body
is not among the shipped sources). The authorization gate is checked
first — an unauthorized signer always fails with `UnauthorizedVerifier`
regardless of the pass state (spec §8) — then an already-checked-in
pass is rejected with `AlreadyCheckedIn`; otherwise `checked_in := true`
and `checked_in_at := now`. A missing pass account fails at the Anchor
account layer (`ConstraintViolation`). -/
def check_in (s : ProgState) (v : Pubkey) (k : PassKey) (now : Int) :
    Except ProgramError ProgState :=
  match findPass s k with
  | Option.none => Except.error ProgramError.ConstraintViolation
  | Option.some p =>
    if ¬ authorizedSigner s p v then
      Except.error ProgramError.UnauthorizedVerifier
    else if p.checked_in then
      Except.error ProgramError.AlreadyCheckedIn
    else
      Except.ok { s with
        passes := setPass s.passes k
          { p with checked_in := true, checked_in_at := Option.some now } }

/-- Modelled from the spec: `withdraw_treasury` (spec §4.5; the Rust
handler body is not among the shipped sources). Anchor-level account
constraints require the signer to be the Event's organizer and the
destination to be the `settlement_treasury` recorded at creation; then
`now >= end_ts` (`EventNotEnded`) and `settled == false`
(`AlreadySettled`) are enforced; on success the VaultTreasury's entire
lamport balance moves to the settlement treasury, `total_withdrawn`
is incremented by that amount (checked u64) and `settled := true`. -/
def withdraw_treasury (s : ProgState) (signer dest : Pubkey) (now : Int) :
    Except ProgramError ProgState :=
  if signer ≠ s.event.organizer then
    Except.error ProgramError.ConstraintViolation
  else if dest ≠ s.event.settlement_treasury then
    Except.error ProgramError.ConstraintViolation
  else if now < s.event.end_ts then
    Except.error ProgramError.EventNotEnded
  else if s.event.settled then
    Except.error ProgramError.AlreadySettled
  else if U64_BOUND ≤ s.vault.total_withdrawn + s.vault_treasury then
    Except.error ProgramError.MathOverflow
  else
    Except.ok { s with
      event := { s.event with settled := true }
      vault := { s.vault with
        total_withdrawn := s.vault.total_withdrawn + s.vault_treasury }
      vault_treasury := 0
      settlement_balance := s.settlement_balance + s.vault_treasury }

/-- Modelled from the spec: `harvest_yield` (spec §4.6; the Rust handler
body is not among the shipped sources). The organizer signs (Anchor
constraint); a `None` strategy fails with `NoYieldStrategy`; a zero
amount or one above the adapter reserve's balance fails with
`InvalidHarvestAmount`; the adapter CPI either moves exactly `amount`
into the VaultTreasury or fails, aborting the transaction with no
bookkeeping recorded (`adapter_ok` models the adapter's success); on
success `total_yield_harvested` is incremented (checked u64) and
`last_harvest_ts` updated. -/
def harvest_yield (s : ProgState) (signer : Pubkey) (amount : Nat) (now : Int)
    (adapter_ok : Bool) : Except ProgramError ProgState :=
  if signer ≠ s.event.organizer then
    Except.error ProgramError.ConstraintViolation
  else if s.event.yield_strategy = YieldStrategy.none then
    Except.error ProgramError.NoYieldStrategy
  else if amount = 0 ∨ s.adapter_reserve < amount then
    Except.error ProgramError.InvalidHarvestAmount
  else if ¬ adapter_ok then
    Except.error ProgramError.AdapterFailure
  else if U64_BOUND ≤ s.vault.total_yield_harvested + amount then
    Except.error ProgramError.MathOverflow
  else
    Except.ok { s with
      vault := { s.vault with
        total_yield_harvested := s.vault.total_yield_harvested + amount
        last_harvest_ts := now }
      vault_treasury := s.vault_treasury + amount
      adapter_reserve := s.adapter_reserve - amount }

/-- The loyalty-mint address derived from a pass key: deterministic in
the pass (the TypeScript `getLoyaltyMintPda` derives it from the pass
address with the `"loyalty-mint"` seed). -/
def loyaltyMintAddr (k : PassKey) : Pubkey :=
  Nat.pair k.1 k.2

/-- Modelled from the spec: `issue_loyalty_nft` (spec §4.7; the Rust
handler body is not among the shipped sources). The organizer signs
(Anchor constraint); requires `checked_in == true` (`PassNotCheckedIn`)
and `loyalty_mint` unset (`LoyaltyAlreadyIssued`); creates the
LoyaltyMint, mints exactly one unit to the pass owner's holding
account and records the mint address on the pass. -/
def issue_loyalty_nft (s : ProgState) (signer : Pubkey) (k : PassKey) :
    Except ProgramError ProgState :=
  if signer ≠ s.event.organizer then
    Except.error ProgramError.ConstraintViolation
  else
    match findPass s k with
    | Option.none => Except.error ProgramError.ConstraintViolation
    | Option.some p =>
      if ¬ p.checked_in then
        Except.error ProgramError.PassNotCheckedIn
      else if p.loyalty_mint.isSome then
        Except.error ProgramError.LoyaltyAlreadyIssued
      else
        Except.ok { s with
          passes := setPass s.passes k
            { p with loyalty_mint := Option.some (loyaltyMintAddr k) }
          loyalty_balances := creditLoyalty s.loyalty_balances k }

/-- Funding of the external adapter reserve (the vault-stub's
`fundReserve` used by the tests): lamports enter the reserve from
outside; no program account changes. -/
def fund_reserve (s : ProgState) (amount : Nat) : ProgState :=
  { s with adapter_reserve := s.adapter_reserve + amount }

/-- Program-derived-address seeds, embedded from the TypeScript client
(`frontend/lib` `getEventPassPda` and the test helper
`findEventPassPda`): a PDA is a deterministic function of its seed
byte-strings, so two derivations agree exactly when their seeds agree
(spec §4.1 treats the host derivation as an injective primitive). We
model an address by its seed list; a pubkey seed is the singleton list
holding the abstract key. -/
abbrev Seeds := List (List Nat)

/-- The byte string `"event-pass"` (the `PASS_SEED` constant of the
TypeScript sources). -/
def PASS_SEED : List Nat :=
  (String.toUTF8 "event-pass").toList.map (fun b => b.toNat)

/-- Node's `Buffer.from([tierId])`: the tier id is encoded as exactly
one byte, i.e. reduced modulo 256. -/
def bufferFromByte (n : Nat) : List Nat := [n % 256]

/-- Embedded from `getEventPassPda` (TypeScript client) and
`findEventPassPda` (test suite): seeds
`[PASS_SEED, event, attendee, Buffer.from([tierId])]`. -/
def getEventPassPda (event attendee : Pubkey) (tierId : Nat) : Seeds :=
  [PASS_SEED, [event], [attendee], bufferFromByte tierId]

/-- One instruction-level transition of the program state: a successful
call of any handler, or an external top-up of the adapter reserve. -/
inductive Step : ProgState → ProgState → Prop where
  | mint : ∀ s s' a tid bal now,
      mint_pass s a tid bal now = Except.ok s' → Step s s'
  | checkin : ∀ s s' v k now,
      check_in s v k now = Except.ok s' → Step s s'
  | withdraw : ∀ s s' sg d now,
      withdraw_treasury s sg d now = Except.ok s' → Step s s'
  | harvest : ∀ s s' sg amount now b,
      harvest_yield s sg amount now b = Except.ok s' → Step s s'
  | loyalty : ∀ s s' sg k,
      issue_loyalty_nft s sg k = Except.ok s' → Step s s'
  | fund : ∀ s amount, Step s (fund_reserve s amount)

/-- The reachable states of one event's accounts: freshly created by a
successful `create_event`, then closed under instruction steps. -/
inductive Reachable : ProgState → Prop where
  | created : ∀ org a s, create_event org a = Except.ok s → Reachable s
  | step : ∀ s s', Reachable s → Step s s' → Reachable s'

/-- Conservation between the treasury balance and the vault counters:
every lamport in the VaultTreasury is accounted for by deposits plus
harvested yield net of withdrawals. -/
def Accounted (s : ProgState) : Prop :=
  s.vault_treasury + s.vault.total_withdrawn
    = s.vault.total_deposited + s.vault.total_yield_harvested

/-- Supply conservation (spec §8): no tier's sold counter exceeds its
cap. -/
def SupplyOk (s : ProgState) : Prop :=
  ∀ t ∈ s.event.tiers, t.sold ≤ t.max_supply

/-- Tier ids are unique within the event (enforced at creation). -/
def TiersUnique (s : ProgState) : Prop :=
  (s.event.tiers.map (·.tier_id)).Nodup

/-- Pass keys are unique: at most one EventPass per (attendee, tier
byte) for the event. -/
def KeysNodup (s : ProgState) : Prop :=
  (s.passes.map Prod.fst).Nodup

/-- The inductive invariant of the account system: treasury/counter
conservation, supply conservation, unique tier ids and unique pass
keys. -/
def Inv (s : ProgState) : Prop :=
  Accounted s ∧ SupplyOk s ∧ TiersUnique s ∧ KeysNodup s

/-- Demo fixture: creation arguments mirroring the test fixture (an
organizer key `3`, one verifier `5`, settlement treasury `7`, one tier
of id 1, price 5 lamports and supply cap 2). -/
def demoArgs : CreateEventArgs :=
  { event_id := 1
    name := "EventFlux Summit"
    venue := "Metropolis Arena"
    start_ts := 100
    end_ts := 200
    settlement_treasury := 7
    yield_strategy := YieldStrategy.kamino
    authorized_verifiers := [5]
    tiers := [{ tier_id := 1, label := "VIP", price_lamports := 5, max_supply := 2 }] }

/-- The freshly created demo state. -/
def s0 : ProgState :=
  { event :=
      { organizer := 3
        event_id := 1
        name := "EventFlux Summit"
        venue := "Metropolis Arena"
        start_ts := 100
        end_ts := 200
        settlement_treasury := 7
        yield_strategy := YieldStrategy.kamino
        authorized_verifiers := [5]
        tiers := [{ tier_id := 1, label := "VIP", price_lamports := 5
                    max_supply := 2, sold := 0 }]
        total_passes := 0
        settled := false }
    vault :=
      { strategy := YieldStrategy.kamino
        total_deposited := 0
        total_withdrawn := 0
        total_yield_harvested := 0
        last_harvest_ts := 0 }
    vault_treasury := 0
    settlement_balance := 0
    adapter_reserve := 0
    passes := []
    loyalty_balances := [] }

/-- Demo state after attendee `10` mints a tier-1 pass at time 120. -/
def s1 : ProgState := (mint_pass s0 10 1 5 120).toOption.getD s0

/-- Demo state after verifier `5` checks attendee `10` in at time 130. -/
def s2 : ProgState := (check_in s1 5 (passKey 10 1) 130).toOption.getD s1

/-- Demo state after the organizer issues the loyalty reward. -/
def s3 : ProgState := (issue_loyalty_nft s2 3 (passKey 10 1)).toOption.getD s2

/-- Demo state after the organizer withdraws the treasury at time 250. -/
def s4 : ProgState := (withdraw_treasury s2 3 7 250).toOption.getD s2

/-- A tier-1 sold-out state: the demo tier with both supply slots sold. -/
def soldOutState : ProgState :=
  { s1 with event := { s1.event with
      tiers := [{ tier_id := 1, label := "VIP", price_lamports := 5
                  max_supply := 2, sold := 2 }] } }

/-- The demo state with `yield_strategy = None`. -/
def sNone : ProgState :=
  { s0 with event := { s0.event with yield_strategy := YieldStrategy.none } }

/-- Demo state: the adapter reserve funded with 100 lamports on top of
`s1`, then 50 lamports harvested at time 140. -/
def s5 : ProgState :=
  (harvest_yield (fund_reserve s1 100) 3 50 140 true).toOption.getD s1

lemma find?_key_eq {ps : List (PassKey × EventPass)} {k : PassKey}
    {q : PassKey × EventPass}
    (h : ps.find? (fun q => decide (q.1 = k)) = Option.some q) : q.1 = k := by
  have := List.find?_some h
  simpa using this

lemma findPass_eq_some {s : ProgState} {k : PassKey} {p : EventPass} :
    findPass s k = Option.some p ↔
      s.passes.find? (fun q => decide (q.1 = k)) = Option.some (k, p) := by
  unfold findPass
  cases hf : s.passes.find? (fun q => decide (q.1 = k)) with
  | none => simp
  | some q =>
    have hk : q.1 = k := find?_key_eq hf
    constructor
    · intro h
      simp only [Option.map_some] at h
      obtain ⟨k₁, p₁⟩ := q
      cases h
      simp_all
    · intro h
      cases h
      simp

lemma setPass_keys (ps : List (PassKey × EventPass)) (k : PassKey) (p : EventPass) :
    (setPass ps k p).map Prod.fst = ps.map Prod.fst := by
  unfold setPass
  rw [List.map_map]
  apply List.map_congr_left
  intro q _
  by_cases h : q.1 = k <;> simp [h]

lemma find?_setPass_self {ps : List (PassKey × EventPass)} {k : PassKey}
    {q0 : PassKey × EventPass} (p : EventPass)
    (h : ps.find? (fun q => decide (q.1 = k)) = Option.some q0) :
    (setPass ps k p).find? (fun q => decide (q.1 = k)) = Option.some (k, p) := by
  induction ps with
  | nil => simp at h
  | cons hd tl ih =>
    by_cases hk : hd.1 = k
    · simp [setPass, hk]
    · rw [List.find?_cons_of_neg _ (by simpa using hk)] at h
      have htl := ih h
      unfold setPass at htl ⊢
      simpa [hk] using htl

lemma findPass_setPass_self {s : ProgState} {k : PassKey} {p0 : EventPass}
    (p : EventPass) (h : findPass s k = Option.some p0) :
    findPass { s with passes := setPass s.passes k p } k = Option.some p := by
  have := find?_setPass_self p (findPass_eq_some.mp h)
  exact findPass_eq_some.mpr this

lemma mem_updateTierSold {ts : List TierConfig} {tid v : Nat} {t' : TierConfig}
    (h : t' ∈ updateTierSold ts tid v) :
    (∃ t ∈ ts, t.tier_id = tid ∧ t' = { t with sold := v }) ∨ t' ∈ ts := by
  unfold updateTierSold at h
  rcases List.mem_map.1 h with ⟨t, ht, rfl⟩
  by_cases htid : t.tier_id = tid
  · exact Or.inl ⟨t, ht, htid, by simp [htid]⟩
  · right; simpa [htid] using ht

lemma updateTierSold_ids (ts : List TierConfig) (tid v : Nat) :
    (updateTierSold ts tid v).map (·.tier_id) = ts.map (·.tier_id) := by
  unfold updateTierSold
  rw [List.map_map]
  apply List.map_congr_left
  intro t _
  by_cases h : t.tier_id = tid <;> simp [h]

lemma tier_unique {ts : List TierConfig} (hnd : (ts.map (·.tier_id)).Nodup)
    {a b : TierConfig} (ha : a ∈ ts) (hb : b ∈ ts)
    (hid : a.tier_id = b.tier_id) : a = b :=
  List.inj_on_of_nodup_map hnd ha hb hid

/-- Inversion of a successful `mint_pass`: the tier was found with a
free slot, no pass existed at the derived key, the attendee could pay,
and the result state is the expected update. -/
lemma mint_pass_ok_inv {s : ProgState} {a tid bal : Nat} {now : Int}
    {s' : ProgState} (h : mint_pass s a tid bal now = Except.ok s') :
    ∃ tier, s.event.tiers.find? (fun t => decide (t.tier_id = tid)) = Option.some tier ∧
      tier.sold < tier.max_supply ∧
      s.passes.find? (fun q => decide (q.1 = passKey a tid)) = Option.none ∧
      tier.price_lamports ≤ bal ∧
      s' = { s with
        event := { s.event with
          tiers := updateTierSold s.event.tiers tid (tier.sold + 1)
          total_passes := s.event.total_passes + 1 }
        vault := { s.vault with
          total_deposited := s.vault.total_deposited + tier.price_lamports }
        vault_treasury := s.vault_treasury + tier.price_lamports
        passes := (passKey a tid, mkPass a tid tier.price_lamports now)
          :: s.passes } := by
  unfold mint_pass at h
  split at h
  · cases h
  · rename_i tier hfind
    split_ifs at h with h1 h2 h3 h4 h5 h6
    any_goals cases h
    exact ⟨tier, hfind, by omega, Option.not_isSome_iff_eq_none.mp h2, by omega,
      rfl⟩

/-- Inversion of a successful `withdraw_treasury`. -/
lemma withdraw_ok_inv {s : ProgState} {sg d : Pubkey} {now : Int}
    {s' : ProgState} (h : withdraw_treasury s sg d now = Except.ok s') :
    sg = s.event.organizer ∧ d = s.event.settlement_treasury ∧
      s.event.end_ts ≤ now ∧ s.event.settled = false ∧
      s' = { s with
        event := { s.event with settled := true }
        vault := { s.vault with
          total_withdrawn := s.vault.total_withdrawn + s.vault_treasury }
        vault_treasury := 0
        settlement_balance := s.settlement_balance + s.vault_treasury } := by
  unfold withdraw_treasury at h
  split_ifs at h with h1 h2 h3 h4 h5
  any_goals cases h
  exact ⟨not_ne_iff.mp h1, not_ne_iff.mp h2, by omega, by simpa using h4, rfl⟩

/-- Inversion of a successful `harvest_yield`. -/
lemma harvest_ok_inv {s : ProgState} {sg : Pubkey} {amount : Nat} {now : Int}
    {b : Bool} {s' : ProgState}
    (h : harvest_yield s sg amount now b = Except.ok s') :
    sg = s.event.organizer ∧ s.event.yield_strategy ≠ YieldStrategy.none ∧
      0 < amount ∧ amount ≤ s.adapter_reserve ∧ b = true ∧
      s' = { s with
        vault := { s.vault with
          total_yield_harvested := s.vault.total_yield_harvested + amount
          last_harvest_ts := now }
        vault_treasury := s.vault_treasury + amount
        adapter_reserve := s.adapter_reserve - amount } := by
  unfold harvest_yield at h
  split_ifs at h with h1 h2 h3 h4 h5
  any_goals cases h
  push_neg at h3
  exact ⟨not_ne_iff.mp h1, h2, by omega, by omega, h4, rfl⟩

/-- Inversion of a successful `check_in`. -/
lemma check_in_ok_inv {s : ProgState} {v : Pubkey} {k : PassKey} {now : Int}
    {s' : ProgState} (h : check_in s v k now = Except.ok s') :
    ∃ p, findPass s k = Option.some p ∧ authorizedSigner s p v ∧
      p.checked_in = false ∧
      s' = { s with
        passes := setPass s.passes k
          { p with checked_in := true, checked_in_at := Option.some now } } := by
  unfold check_in at h
  split at h
  · cases h
  · rename_i p hfind
    split_ifs at h with h1 h2
    any_goals cases h
    exact ⟨p, hfind, h1, by simpa using h2, rfl⟩

/-- Inversion of a successful `issue_loyalty_nft`. -/
lemma loyalty_ok_inv {s : ProgState} {sg : Pubkey} {k : PassKey}
    {s' : ProgState} (h : issue_loyalty_nft s sg k = Except.ok s') :
    ∃ p, sg = s.event.organizer ∧ findPass s k = Option.some p ∧
      p.checked_in = true ∧ p.loyalty_mint = Option.none ∧
      s' = { s with
        passes := setPass s.passes k
          { p with loyalty_mint := Option.some (loyaltyMintAddr k) }
        loyalty_balances := creditLoyalty s.loyalty_balances k } := by
  unfold issue_loyalty_nft at h
  by_cases h1 : sg ≠ s.event.organizer
  · rw [if_pos h1] at h; cases h
  · rw [if_neg h1] at h
    split at h
    · cases h
    · rename_i p hfind
      split_ifs at h with h2 h3
      any_goals cases h
      exact ⟨p, not_ne_iff.mp h1, hfind, h2,
        Option.not_isSome_iff_eq_none.mp h3, rfl⟩

lemma inv_create {org : Pubkey} {a : CreateEventArgs} {s : ProgState}
    (h : create_event org a = Except.ok s) : Inv s := by
  unfold create_event at h
  split_ifs at h with h1 h2
  any_goals cases h
  push_neg at h2
  refine ⟨by simp [Accounted], ?_, ?_, by simp [KeysNodup]⟩
  · intro t ht
    simp only [SupplyOk] at *
    rcases List.mem_map.1 ht with ⟨u, _, rfl⟩
    simp
  · unfold TiersUnique
    simp only [List.map_map]
    have : ((fun t : TierConfig => t.tier_id) ∘ fun t : TierArgs =>
        ({ tier_id := t.tier_id, label := t.label,
           price_lamports := t.price_lamports,
           max_supply := t.max_supply, sold := 0 } : TierConfig))
        = fun t : TierArgs => t.tier_id := rfl
    rw [this]
    exact h2.2.2

lemma find?_none_not_mem_keys {ps : List (PassKey × EventPass)} {k : PassKey}
    (h : ps.find? (fun q => decide (q.1 = k)) = Option.none) :
    k ∉ ps.map Prod.fst := by
  intro hk
  rcases List.mem_map.1 hk with ⟨q, hq, rfl⟩
  have := List.find?_eq_none.mp h q hq
  simp at this

lemma inv_mint {s s' : ProgState} {a tid bal : Nat} {now : Int}
    (h : mint_pass s a tid bal now = Except.ok s') (hs : Inv s) : Inv s' := by
  obtain ⟨hacc, hsup, huniq, hkeys⟩ := hs
  obtain ⟨tier, hfind, hlt, hnone, _, rfl⟩ := mint_pass_ok_inv h
  have htmem : tier ∈ s.event.tiers := List.mem_of_find?_eq_some hfind
  have htid : tier.tier_id = tid := by
    have := List.find?_some hfind
    simpa using this
  refine ⟨?_, ?_, ?_, ?_⟩
  · unfold Accounted at *
    simp only
    omega
  · intro t' ht'
    simp only at ht'
    rcases mem_updateTierSold ht' with ⟨t, htm, htd, rfl⟩ | hmem
    · have : t = tier := tier_unique huniq htm htmem (by rw [htd, htid])
      subst this
      simpa using hlt
    · exact hsup t' hmem
  · unfold TiersUnique at *
    simpa [updateTierSold_ids] using huniq
  · unfold KeysNodup at *
    simp only [List.map_cons]
    exact List.Nodup.cons (find?_none_not_mem_keys hnone) hkeys

lemma inv_checkin {s s' : ProgState} {v : Pubkey} {k : PassKey} {now : Int}
    (h : check_in s v k now = Except.ok s') (hs : Inv s) : Inv s' := by
  obtain ⟨hacc, hsup, huniq, hkeys⟩ := hs
  obtain ⟨p, _, _, _, rfl⟩ := check_in_ok_inv h
  exact ⟨hacc, hsup, huniq, by
    unfold KeysNodup at *
    simpa [setPass_keys] using hkeys⟩

lemma inv_withdraw {s s' : ProgState} {sg d : Pubkey} {now : Int}
    (h : withdraw_treasury s sg d now = Except.ok s') (hs : Inv s) : Inv s' := by
  obtain ⟨hacc, hsup, huniq, hkeys⟩ := hs
  obtain ⟨_, _, _, _, rfl⟩ := withdraw_ok_inv h
  refine ⟨?_, hsup, huniq, hkeys⟩
  unfold Accounted at *
  simp only
  omega

lemma inv_harvest {s s' : ProgState} {sg : Pubkey} {amount : Nat} {now : Int}
    {b : Bool} (h : harvest_yield s sg amount now b = Except.ok s')
    (hs : Inv s) : Inv s' := by
  obtain ⟨hacc, hsup, huniq, hkeys⟩ := hs
  obtain ⟨_, _, _, _, _, rfl⟩ := harvest_ok_inv h
  refine ⟨?_, hsup, huniq, hkeys⟩
  unfold Accounted at *
  simp only
  omega

lemma inv_loyalty {s s' : ProgState} {sg : Pubkey} {k : PassKey}
    (h : issue_loyalty_nft s sg k = Except.ok s') (hs : Inv s) : Inv s' := by
  obtain ⟨hacc, hsup, huniq, hkeys⟩ := hs
  obtain ⟨p, _, _, _, _, rfl⟩ := loyalty_ok_inv h
  exact ⟨hacc, hsup, huniq, by
    unfold KeysNodup at *
    simpa [setPass_keys] using hkeys⟩

lemma inv_step {s s' : ProgState} (h : Step s s') (hs : Inv s) : Inv s' := by
  cases h with
  | mint => rename_i hm; exact inv_mint hm hs
  | checkin => rename_i hc; exact inv_checkin hc hs
  | withdraw => rename_i hw; exact inv_withdraw hw hs
  | harvest => rename_i hh; exact inv_harvest hh hs
  | loyalty => rename_i hl; exact inv_loyalty hl hs
  | fund => exact hs

lemma reachable_inv {s : ProgState} (h : Reachable s) : Inv s := by
  induction h with
  | created org a s hc => exact inv_create hc
  | step s s' _ hstep ih => exact inv_step hstep ih

lemma lookupBal_credit (l : List (PassKey × Nat)) (k : PassKey) :
    lookupBal (creditLoyalty l k) k = lookupBal l k + 1 := by
  simp [creditLoyalty, lookupBal, List.find?]

lemma step_settled_mono {s s' : ProgState} (h : Step s s')
    (hs : s.event.settled = true) : s'.event.settled = true := by
  cases h with
  | mint =>
    rename_i hm
    obtain ⟨tier, _, _, _, _, rfl⟩ := mint_pass_ok_inv hm
    simpa using hs
  | checkin =>
    rename_i hc
    obtain ⟨p, _, _, _, rfl⟩ := check_in_ok_inv hc
    simpa using hs
  | withdraw =>
    rename_i hw
    obtain ⟨_, _, _, _, rfl⟩ := withdraw_ok_inv hw
    rfl
  | harvest =>
    rename_i hh
    obtain ⟨_, _, _, _, _, rfl⟩ := harvest_ok_inv hh
    simpa using hs
  | loyalty =>
    rename_i hl
    obtain ⟨p, _, _, _, _, rfl⟩ := loyalty_ok_inv hl
    simpa using hs
  | fund => simpa using hs

/-- C1: in every reachable state every tier satisfies
`sold ≤ max_supply`; and a `mint_pass` against a tier whose sold
counter equals its supply cap fails with `TierSoldOut` — the handler
returns the error without producing any successor state, so the Event,
VaultState and VaultTreasury are left unchanged. -/
theorem C1_supply_conservation :
    (∀ s, Reachable s → ∀ t ∈ s.event.tiers, t.sold ≤ t.max_supply) ∧
    (∀ (s : ProgState) (a tid bal : Nat) (now : Int) (tier : TierConfig),
      s.event.tiers.find? (fun t => decide (t.tier_id = tid)) = Option.some tier →
      tier.sold = tier.max_supply →
      mint_pass s a tid bal now = Except.error ProgramError.TierSoldOut) := by
  constructor
  · intro s hs
    exact (reachable_inv hs).2.1
  · intro s a tid bal now tier hfind heq
    simp only [mint_pass, hfind]
    rw [if_pos (by omega : tier.max_supply ≤ tier.sold)]

/-- C1 witness: the invariant holds at the freshly created demo state,
and minting into the fully sold demo tier fails with `TierSoldOut`. -/
theorem C1_supply_conservation_witness :
    (∀ t ∈ s0.event.tiers, t.sold ≤ t.max_supply) ∧
    mint_pass soldOutState 11 1 5 120 = Except.error ProgramError.TierSoldOut := by
  constructor
  · exact C1_supply_conservation.1 s0 (Reachable.created 3 demoArgs s0 (by decide))
  · exact C1_supply_conservation.2 soldOutState 11 1 5 120
      { tier_id := 1, label := "VIP", price_lamports := 5, max_supply := 2, sold := 2 }
      (by decide) (by decide)

/-- C2: vault solvency — in every state reachable by any sequence of
`create_event`, `mint_pass`, `harvest_yield` and `withdraw_treasury`
(and the other instructions), the VaultState counters satisfy
`total_deposited + total_yield_harvested ≥ total_withdrawn`. -/
theorem C2_vault_solvency (s : ProgState) (h : Reachable s) :
    s.vault.total_withdrawn
      ≤ s.vault.total_deposited + s.vault.total_yield_harvested := by
  have hacc := (reachable_inv h).1
  unfold Accounted at hacc
  omega

/-- C2 witness: solvency at the demo state reached by create, mint,
check-in and withdraw. -/
theorem C2_vault_solvency_witness :
    s4.vault.total_withdrawn
      ≤ s4.vault.total_deposited + s4.vault.total_yield_harvested := by
  apply C2_vault_solvency
  apply Reachable.step _ _ ?_ (Step.withdraw s2 s4 3 7 250 (by decide))
  apply Reachable.step _ _ ?_ (Step.checkin s1 s2 5 (passKey 10 1) 130 (by decide))
  apply Reachable.step _ _ ?_ (Step.mint s0 s1 10 1 5 120 (by decide))
  exact Reachable.created 3 demoArgs s0 (by decide)

/-- C3: settlement is one-shot — a withdrawal by the organizer to the
recorded settlement treasury before `end_ts` fails with
`EventNotEnded`; after a successful withdrawal every later call (time
does not run backwards) fails with `AlreadySettled`; a successful
withdrawal flips `settled` from `false` to `true`; and no instruction
step ever resets `settled` back to `false`. -/
theorem C3_settlement_one_shot :
    (∀ (s : ProgState) (now : Int), now < s.event.end_ts →
      withdraw_treasury s s.event.organizer s.event.settlement_treasury now
        = Except.error ProgramError.EventNotEnded) ∧
    (∀ (s s' : ProgState) (sg d : Pubkey) (t1 t2 : Int),
      withdraw_treasury s sg d t1 = Except.ok s' → t1 ≤ t2 →
      withdraw_treasury s' s'.event.organizer s'.event.settlement_treasury t2
        = Except.error ProgramError.AlreadySettled) ∧
    (∀ (s s' : ProgState) (sg d : Pubkey) (now : Int),
      withdraw_treasury s sg d now = Except.ok s' →
      s.event.settled = false ∧ s'.event.settled = true) ∧
    (∀ s s' : ProgState, Step s s' →
      s.event.settled = true → s'.event.settled = true) := by
  refine ⟨?_, ?_, ?_, ?_⟩
  · intro s now hnow
    unfold withdraw_treasury
    rw [if_neg (by simp), if_neg (by simp), if_pos hnow]
  · intro s s' sg d t1 t2 h ht
    obtain ⟨_, _, hend, _, rfl⟩ := withdraw_ok_inv h
    unfold withdraw_treasury
    rw [if_neg (by simp), if_neg (by simp),
      if_neg (by simp only; omega), if_pos rfl]
  · intro s s' sg d now h
    obtain ⟨_, _, _, hset, rfl⟩ := withdraw_ok_inv h
    exact ⟨hset, rfl⟩
  · intro s s' hstep hset
    exact step_settled_mono hstep hset

/-- C3 witness: at the demo event (end_ts = 200) the four parts hold
at concrete inputs: early withdrawal at time 150 fails
`EventNotEnded`; after the successful withdrawal at 250 a retry at 260
fails `AlreadySettled`; the flag flips false→true at 250; funding the
reserve after settlement keeps `settled = true`. -/
theorem C3_settlement_one_shot_witness :
    withdraw_treasury s2 s2.event.organizer s2.event.settlement_treasury 150
      = Except.error ProgramError.EventNotEnded ∧
    withdraw_treasury s4 s4.event.organizer s4.event.settlement_treasury 260
      = Except.error ProgramError.AlreadySettled ∧
    (s2.event.settled = false ∧ s4.event.settled = true) ∧
    (fund_reserve s4 9).event.settled = true := by
  refine ⟨?_, ?_, ?_, ?_⟩
  · exact C3_settlement_one_shot.1 s2 150 (by decide)
  · exact C3_settlement_one_shot.2.1 s2 s4 3 7 250 260 (by decide) (by decide)
  · exact C3_settlement_one_shot.2.2.1 s2 s4 3 7 250 (by decide)
  · exact C3_settlement_one_shot.2.2.2 s4 (fund_reserve s4 9)
      (Step.fund s4 9) (by decide)

/-- C4: a successful `withdraw_treasury` can only have been called
with the destination equal to the event's recorded
`settlement_treasury` (Anchor account constraint — a caller-chosen
destination is rejected), and it credits that account with the entire
VaultTreasury balance, zeroes the treasury, increments
`total_withdrawn` by exactly that amount and sets `settled`. -/
theorem C4_withdraw_destination (s s' : ProgState) (sg d : Pubkey) (now : Int)
    (h : withdraw_treasury s sg d now = Except.ok s') :
    d = s.event.settlement_treasury ∧ sg = s.event.organizer ∧
    s'.settlement_balance = s.settlement_balance + s.vault_treasury ∧
    s'.vault_treasury = 0 ∧
    s'.vault.total_withdrawn = s.vault.total_withdrawn + s.vault_treasury ∧
    s'.event.settled = true := by
  obtain ⟨h1, h2, _, _, rfl⟩ := withdraw_ok_inv h
  exact ⟨h2, h1, rfl, rfl, rfl, rfl⟩

/-- C4 witness: the concrete demo withdrawal at time 250. -/
theorem C4_withdraw_destination_witness :
    (7 : Pubkey) = s2.event.settlement_treasury ∧
    (3 : Pubkey) = s2.event.organizer ∧
    s4.settlement_balance = s2.settlement_balance + s2.vault_treasury ∧
    s4.vault_treasury = 0 ∧
    s4.vault.total_withdrawn = s2.vault.total_withdrawn + s2.vault_treasury ∧
    s4.event.settled = true :=
  C4_withdraw_destination s2 s4 3 7 250 (by decide)

/-- C5 counterexample: in the demo state `s2` the pass of attendee 10
is already checked in, yet a subsequent `check_in` by the signer 99 —
"any signer" per the claim — fails with `UnauthorizedVerifier`, not
with `AlreadyCheckedIn`: the authorization gate (spec §8:
`UnauthorizedVerifier` "regardless of pass state") is checked before
the double-check-in guard. -/
theorem C5_counterexample :
    (findPass s2 (passKey 10 1)).map (fun p => p.checked_in)
      = Option.some true ∧
    check_in s2 99 (passKey 10 1) 140
      = Except.error ProgramError.UnauthorizedVerifier ∧
    check_in s2 99 (passKey 10 1) 140
      ≠ Except.error ProgramError.AlreadyCheckedIn := by
  exact ⟨by decide, by decide, by decide⟩

/-- C5 (amended): the first `check_in` on a pass by an authorized
signer succeeds and sets `checked_in := true` and
`checked_in_at := now`; every subsequent `check_in` on the same pass
by an authorized signer (organizer, listed verifier, or the pass
owner) fails with `AlreadyCheckedIn` and, the handler returning an
error and no successor state, does not alter `checked_in_at`. -/
theorem C5_check_in_idempotence :
    (∀ (s : ProgState) (v : Pubkey) (k : PassKey) (now : Int) (p : EventPass),
      findPass s k = Option.some p → authorizedSigner s p v →
      p.checked_in = false →
      check_in s v k now = Except.ok { s with passes := setPass s.passes k { p with checked_in := true, checked_in_at := Option.some now } }) ∧
    (∀ (s : ProgState) (v : Pubkey) (k : PassKey) (now : Int) (p : EventPass),
      findPass s k = Option.some p → authorizedSigner s p v →
      p.checked_in = true →
      check_in s v k now = Except.error ProgramError.AlreadyCheckedIn) := by
  constructor
  · intro s v k now p hfind hauth hci
    simp only [check_in, hfind]
    rw [if_neg (not_not_intro hauth), if_neg (by simp [hci])]
  · intro s v k now p hfind hauth hci
    simp only [check_in, hfind]
    rw [if_neg (not_not_intro hauth), if_pos hci]

/-- C5 witness: verifier 5 checks attendee 10 in at time 130, then the
pass owner's own retry at 140 fails `AlreadyCheckedIn`. -/
theorem C5_check_in_idempotence_witness :
    check_in s1 5 (passKey 10 1) 130
      = Except.ok { s1 with passes := setPass s1.passes (passKey 10 1) { mkPass 10 1 5 120 with checked_in := true, checked_in_at := Option.some 130 } } ∧
    check_in s2 10 (passKey 10 1) 140
      = Except.error ProgramError.AlreadyCheckedIn := by
  constructor
  · exact C5_check_in_idempotence.1 s1 5 (passKey 10 1) 130
      (mkPass 10 1 5 120) (by decide) (by decide) (by decide)
  · exact C5_check_in_idempotence.2 s2 10 (passKey 10 1) 140
      { mkPass 10 1 5 120 with checked_in := true, checked_in_at := Option.some 130 }
      (by decide) (by decide) (by decide)

/-- C6: the authorization gate of `check_in` — a signer that is
neither the organizer, nor a listed verifier, nor the pass owner is
rejected with `UnauthorizedVerifier` whatever the pass's current state
is. -/
theorem C6_authorization_gate (s : ProgState) (v : Pubkey) (k : PassKey)
    (now : Int) (p : EventPass) (hfind : findPass s k = Option.some p)
    (hv : ¬ authorizedSigner s p v) :
    check_in s v k now = Except.error ProgramError.UnauthorizedVerifier := by
  simp only [check_in, hfind]
  rw [if_pos hv]

/-- C6 witness: signer 99 (not organizer 3, not in `[5]`, not owner
10) is rejected on the freshly minted demo pass. -/
theorem C6_authorization_gate_witness :
    check_in s1 99 (passKey 10 1) 135
      = Except.error ProgramError.UnauthorizedVerifier :=
  C6_authorization_gate s1 99 (passKey 10 1) 135 (mkPass 10 1 5 120)
    (by decide) (by decide)

/-- C7: loyalty issuance is one-shot and gated on check-in — before
check-in the organizer's call fails with `PassNotCheckedIn`; a
successful call requires `checked_in = true` and no prior issuance,
credits exactly one token unit to the pass owner's holding account and
records the derived mint address on the pass; a repeated call on the
resulting state fails with `LoyaltyAlreadyIssued`. -/
theorem C7_loyalty_one_shot :
    (∀ (s : ProgState) (k : PassKey) (p : EventPass),
      findPass s k = Option.some p → p.checked_in = false →
      issue_loyalty_nft s s.event.organizer k
        = Except.error ProgramError.PassNotCheckedIn) ∧
    (∀ (s s' : ProgState) (sg : Pubkey) (k : PassKey),
      issue_loyalty_nft s sg k = Except.ok s' →
      ∃ p, sg = s.event.organizer ∧ findPass s k = Option.some p ∧
        p.checked_in = true ∧ p.loyalty_mint = Option.none ∧
        findPass s' k = Option.some
          { p with loyalty_mint := Option.some (loyaltyMintAddr k) } ∧
        lookupBal s'.loyalty_balances k = lookupBal s.loyalty_balances k + 1) ∧
    (∀ (s s' : ProgState) (sg : Pubkey) (k : PassKey),
      issue_loyalty_nft s sg k = Except.ok s' →
      issue_loyalty_nft s' s'.event.organizer k
        = Except.error ProgramError.LoyaltyAlreadyIssued) := by
  refine ⟨?_, ?_, ?_⟩
  · intro s k p hfind hci
    simp only [issue_loyalty_nft, hfind]
    rw [if_neg (by simp), if_pos (by simp [hci])]
  · intro s s' sg k h
    obtain ⟨p, hsg, hfind, hci, hlm, rfl⟩ := loyalty_ok_inv h
    exact ⟨p, hsg, hfind, hci, hlm, findPass_setPass_self _ hfind,
      lookupBal_credit _ _⟩
  · intro s s' sg k h
    obtain ⟨p, hsg, hfind, hci, hlm, rfl⟩ := loyalty_ok_inv h
    have hfind' : findPass { s with
        passes := setPass s.passes k
          { p with loyalty_mint := Option.some (loyaltyMintAddr k) }
        loyalty_balances := creditLoyalty s.loyalty_balances k } k
        = Option.some { p with loyalty_mint := Option.some (loyaltyMintAddr k) } :=
      findPass_setPass_self _ hfind
    simp only [issue_loyalty_nft, hfind']
    rw [if_neg (by simp), if_neg (by simp [hci]), if_pos (by simp)]

/-- C7 witness: before check-in the demo call fails
`PassNotCheckedIn`; the checked-in demo pass yields a successful
issuance with one token unit credited; the repeat on `s3` fails
`LoyaltyAlreadyIssued`. -/
theorem C7_loyalty_one_shot_witness :
    issue_loyalty_nft s1 s1.event.organizer (passKey 10 1)
      = Except.error ProgramError.PassNotCheckedIn ∧
    (∃ p, (3 : Pubkey) = s2.event.organizer ∧
      findPass s2 (passKey 10 1) = Option.some p ∧
      p.checked_in = true ∧ p.loyalty_mint = Option.none ∧
      findPass s3 (passKey 10 1) = Option.some
        { p with loyalty_mint := Option.some (loyaltyMintAddr (passKey 10 1)) } ∧
      lookupBal s3.loyalty_balances (passKey 10 1)
        = lookupBal s2.loyalty_balances (passKey 10 1) + 1) ∧
    issue_loyalty_nft s3 s3.event.organizer (passKey 10 1)
      = Except.error ProgramError.LoyaltyAlreadyIssued := by
  refine ⟨?_, ?_, ?_⟩
  · exact C7_loyalty_one_shot.1 s1 (passKey 10 1) (mkPass 10 1 5 120)
      (by decide) (by decide)
  · exact C7_loyalty_one_shot.2.1 s2 s3 3 (passKey 10 1) (by decide)
  · exact C7_loyalty_one_shot.2.2 s2 s3 3 (passKey 10 1) (by decide)

/-- C8: a successful `mint_pass` creates the EventPass at its derived
key, moves the tier's `price_lamports` from the attendee (the attendee
could pay) into the VaultTreasury, increments the tier's `sold`
counter, the VaultState's `total_deposited` and the Event's
`total_passes`; and success does not depend on the current time at
all — in particular not on lying inside `[start_ts, end_ts]`. -/
theorem C8_mint_effects :
    (∀ (s s' : ProgState) (a tid bal : Nat) (now : Int),
      mint_pass s a tid bal now = Except.ok s' →
      ∃ tier, s.event.tiers.find? (fun t => decide (t.tier_id = tid))
          = Option.some tier ∧
        findPass s' (passKey a tid)
          = Option.some (mkPass a tid tier.price_lamports now) ∧
        s'.vault_treasury = s.vault_treasury + tier.price_lamports ∧
        s'.vault.total_deposited
          = s.vault.total_deposited + tier.price_lamports ∧
        s'.event.total_passes = s.event.total_passes + 1 ∧
        tier.price_lamports ≤ bal ∧
        s'.event.tiers = updateTierSold s.event.tiers tid (tier.sold + 1)) ∧
    (∀ (s : ProgState) (a tid bal : Nat) (t1 t2 : Int),
      (mint_pass s a tid bal t1).isOk = (mint_pass s a tid bal t2).isOk) := by
  constructor
  · intro s s' a tid bal now h
    obtain ⟨tier, hfind, _, _, hbal, rfl⟩ := mint_pass_ok_inv h
    refine ⟨tier, hfind, ?_, rfl, rfl, rfl, hbal, rfl⟩
    simp [findPass, List.find?]
  · intro s a tid bal t1 t2
    cases hf : s.event.tiers.find? (fun t => decide (t.tier_id = tid)) with
    | none => simp [mint_pass, hf]
    | some tier =>
      simp only [mint_pass, hf]
      split_ifs <;> rfl

/-- C8 witness: the demo mint by attendee 10 at time 120, and time
independence at the concrete times 0 and 10000 (both outside the
event's `[100, 200]` window on the sold-out state as well as on `s0`). -/
theorem C8_mint_effects_witness :
    (∃ tier, s0.event.tiers.find? (fun t => decide (t.tier_id = 1))
        = Option.some tier ∧
      findPass s1 (passKey 10 1)
        = Option.some (mkPass 10 1 tier.price_lamports 120) ∧
      s1.vault_treasury = s0.vault_treasury + tier.price_lamports ∧
      s1.vault.total_deposited = s0.vault.total_deposited + tier.price_lamports ∧
      s1.event.total_passes = s0.event.total_passes + 1 ∧
      tier.price_lamports ≤ 5 ∧
      s1.event.tiers = updateTierSold s0.event.tiers 1 (tier.sold + 1)) ∧
    (mint_pass s0 11 1 5 0).isOk = (mint_pass s0 11 1 5 10000).isOk := by
  constructor
  · exact C8_mint_effects.1 s0 s1 10 1 5 120 (by decide)
  · exact C8_mint_effects.2 s0 11 1 5 0 10000

/-- C9: `harvest_yield` — with a `None` strategy the organizer's call
fails with `NoYieldStrategy`; a zero amount or one above the adapter
reserve's balance fails with `InvalidHarvestAmount`; on success the
VaultTreasury grows by exactly the requested amount,
`total_yield_harvested` grows by the same amount and
`last_harvest_ts` is set to the current time; and when the adapter
call fails every otherwise-valid request aborts with the propagated
adapter failure, the handler recording no bookkeeping change (it
returns an error and no successor state). -/
theorem C9_harvest_yield :
    (∀ (s : ProgState) (amount : Nat) (now : Int) (b : Bool),
      s.event.yield_strategy = YieldStrategy.none →
      harvest_yield s s.event.organizer amount now b
        = Except.error ProgramError.NoYieldStrategy) ∧
    (∀ (s : ProgState) (amount : Nat) (now : Int) (b : Bool),
      s.event.yield_strategy ≠ YieldStrategy.none →
      (amount = 0 ∨ s.adapter_reserve < amount) →
      harvest_yield s s.event.organizer amount now b
        = Except.error ProgramError.InvalidHarvestAmount) ∧
    (∀ (s s' : ProgState) (sg : Pubkey) (amount : Nat) (now : Int) (b : Bool),
      harvest_yield s sg amount now b = Except.ok s' →
      s'.vault_treasury = s.vault_treasury + amount ∧
      s'.vault.total_yield_harvested
        = s.vault.total_yield_harvested + amount ∧
      s'.vault.last_harvest_ts = now ∧
      s'.adapter_reserve = s.adapter_reserve - amount) ∧
    (∀ (s : ProgState) (amount : Nat) (now : Int),
      s.event.yield_strategy ≠ YieldStrategy.none →
      amount ≠ 0 → amount ≤ s.adapter_reserve →
      harvest_yield s s.event.organizer amount now false
        = Except.error ProgramError.AdapterFailure) := by
  refine ⟨?_, ?_, ?_, ?_⟩
  · intro s amount now b hstrat
    unfold harvest_yield
    rw [if_neg (by simp), if_pos hstrat]
  · intro s amount now b hstrat hamt
    unfold harvest_yield
    rw [if_neg (by simp), if_neg hstrat, if_pos hamt]
  · intro s s' sg amount now b h
    obtain ⟨_, _, _, _, _, rfl⟩ := harvest_ok_inv h
    exact ⟨rfl, rfl, rfl, rfl⟩
  · intro s amount now hstrat hz hle
    unfold harvest_yield
    rw [if_neg (by simp), if_neg hstrat, if_neg (by omega), if_pos (by simp)]

/-- C9 witness: `NoYieldStrategy` on the strategy-less demo event;
`InvalidHarvestAmount` for a request above the empty reserve of `s0`;
the successful demo harvest of 50 lamports out of the funded reserve;
and the adapter-failure abort on the same funded state. -/
theorem C9_harvest_yield_witness :
    harvest_yield sNone sNone.event.organizer 5 140 true
      = Except.error ProgramError.NoYieldStrategy ∧
    harvest_yield s0 s0.event.organizer 5 140 true
      = Except.error ProgramError.InvalidHarvestAmount ∧
    (s5.vault_treasury = (fund_reserve s1 100).vault_treasury + 50 ∧
      s5.vault.total_yield_harvested
        = (fund_reserve s1 100).vault.total_yield_harvested + 50 ∧
      s5.vault.last_harvest_ts = 140 ∧
      s5.adapter_reserve = (fund_reserve s1 100).adapter_reserve - 50) ∧
    harvest_yield (fund_reserve s1 100) (fund_reserve s1 100).event.organizer
        50 140 false
      = Except.error ProgramError.AdapterFailure := by
  refine ⟨?_, ?_, ?_, ?_⟩
  · exact C9_harvest_yield.1 sNone 5 140 true (by decide)
  · exact C9_harvest_yield.2.1 s0 5 140 true (by decide) (by decide)
  · exact C9_harvest_yield.2.2.1 (fund_reserve s1 100) s5 3 50 140 true (by decide)
  · exact C9_harvest_yield.2.2.2 (fund_reserve s1 100) 50 140
      (by decide) (by decide) (by decide)

/-- C10: the EventPass address derivation (embedded from the
TypeScript `getEventPassPda` / `findEventPassPda`) encodes the tier id
as exactly one byte (`tierId % 256`); two derivations for the same
event and attendee agree exactly when the tier bytes agree; a
`mint_pass` whose derived key already carries a pass cannot create a
second one (the call fails); and every reachable state holds at most
one pass per key. -/
theorem C10_pass_pda_uniqueness :
    (∀ tid : Nat, (bufferFromByte tid).length = 1 ∧
      getEventPassPda 1 10 tid = [PASS_SEED, [1], [10], [tid % 256]]) ∧
    (∀ (e a : Pubkey) (t1 t2 : Nat),
      getEventPassPda e a t1 = getEventPassPda e a t2 ↔ t1 % 256 = t2 % 256) ∧
    (∀ (s : ProgState) (a tid tid' bal : Nat) (now : Int),
      tid' % 256 = tid % 256 →
      (findPass s (passKey a tid)).isSome →
      (mint_pass s a tid' bal now).isOk = false) ∧
    (∀ s, Reachable s → (s.passes.map Prod.fst).Nodup) := by
  refine ⟨?_, ?_, ?_, ?_⟩
  · intro tid
    exact ⟨rfl, rfl⟩
  · intro e a t1 t2
    constructor
    · intro h
      simpa [getEventPassPda, bufferFromByte] using h
    · intro h
      simp [getEventPassPda, bufferFromByte, h]
  · intro s a tid tid' bal now hb hsome
    have hkey : passKey a tid' = passKey a tid := by
      unfold passKey
      rw [hb]
    have hsome' : (s.passes.find? (fun q => decide (q.1 = passKey a tid))).isSome := by
      unfold findPass at hsome
      simpa using hsome
    cases hf : s.event.tiers.find? (fun t => decide (t.tier_id = tid')) with
    | none =>
      simp only [mint_pass, hf]
      rfl
    | some tier =>
      simp only [mint_pass, hf, hkey]
      by_cases h1 : tier.max_supply ≤ tier.sold
      · rw [if_pos h1]
        rfl
      · rw [if_neg h1, if_pos hsome']
        rfl
  · intro s hs
    exact (reachable_inv hs).2.2.2

/-- C10 witness: concrete checks at event 1, attendee 10 — tier 257
collides with tier 1 on the tier byte; minting tier 1 again for
attendee 10 on the demo state fails; the demo state's pass keys are
duplicate-free. -/
theorem C10_pass_pda_uniqueness_witness :
    ((bufferFromByte 1).length = 1 ∧
      getEventPassPda 1 10 1 = [PASS_SEED, [1], [10], [1 % 256]]) ∧
    getEventPassPda 1 10 257 = getEventPassPda 1 10 1 ∧
    (mint_pass s1 10 1 5 121).isOk = false ∧
    (s1.passes.map Prod.fst).Nodup := by
  refine ⟨?_, ?_, ?_, ?_⟩
  · exact C10_pass_pda_uniqueness.1 1
  · exact (C10_pass_pda_uniqueness.2.1 1 10 257 1).mpr (by decide)
  · exact C10_pass_pda_uniqueness.2.2.1 s1 10 1 1 5 121 (by decide) (by decide)
  · apply C10_pass_pda_uniqueness.2.2.2
    apply Reachable.step _ _ ?_ (Step.mint s0 s1 10 1 5 120 (by decide))
    exact Reachable.created 3 demoArgs s0 (by decide)

end EventFlux
